import Mathlib

/-!
Shallow embedding of the Starsector plugin for the Vortex mod manager
(src/game-starsector/index.js).

Modelling choices:
* Paths are modelled in the posix flavour of the Node `path` module
  (separator "/"), matching the relative archive paths used throughout.
* String primitives are re-implemented over `List Char` with structural
  recursion so that every definition evaluates inside the kernel.
* JavaScript `undefined` is modelled with `Option`; a thrown `TypeError`
  and a rejected promise are explicit outcome constructors.
* The external collaborators (the registry lookup, `fs.readFileAsync`
  and the relaxed-json parser) are passed in as oracles, exactly at the
  call boundary the source uses them.
-/

namespace Starsector

/-- The plugin's game identifier constant (`GAME_ID` in the source). -/
def GAME_ID : String := "starsector"

/-- The fixed manifest file name (`MOD_INFO_FILE` in the source). -/
def MOD_INFO_FILE : String := "mod_info.json"

/-! ### JavaScript / Node string primitives -/

/-- Does the first list start with the second one? -/
def listStartsWith : List Char → List Char → Bool
  | _, [] => true
  | [], _ :: _ => false
  | c :: s, p :: ps => c = p && listStartsWith s ps

/-- JavaScript `String.prototype.startsWith`. -/
def strStartsWith (s pat : String) : Bool :=
  listStartsWith s.data pat.data

/-- JavaScript `String.prototype.endsWith`. -/
def strEndsWith (s pat : String) : Bool :=
  listStartsWith s.data.reverse pat.data.reverse

/-- JavaScript `String.prototype.substring(n)` (from index `n` to the end;
an index past the end yields the empty string). -/
def strDrop (s : String) (n : Nat) : String :=
  String.mk (s.data.drop n)

/-- JavaScript `String.prototype.length` (code points; the sources only
use ASCII, where this agrees with UTF-16 units). -/
def strLength (s : String) : Nat :=
  s.data.length

/-- Whitespace as trimmed by JavaScript `trim` (restricted to the ASCII
whitespace characters, the only ones arising here). -/
def isWs (c : Char) : Bool :=
  c = ' ' || c = '\t' || c = '\n' || c = '\r'

/-- JavaScript `String.prototype.trim`. -/
def strTrim (s : String) : String :=
  String.mk (((s.data.dropWhile isWs).reverse.dropWhile isWs).reverse)

/-- First index at which `pat` occurs in `s`, if any (helper for
`jsIndexOf`). -/
def indexOfAux : List Char → List Char → Nat → Option Nat
  | s, pat, i =>
    if listStartsWith s pat then some i
    else
      match s with
      | [] => none
      | _ :: rest => indexOfAux rest pat (i + 1)

/-- JavaScript `String.prototype.indexOf`: index of the first occurrence
of `pat` in `s`, or `-1` when there is none. -/
def jsIndexOf (s pat : String) : Int :=
  match indexOfAux s.data pat.data 0 with
  | some i => (i : Int)
  | none => -1

/-! ### Node `path` module (posix flavour) -/

/-- Node `path.basename` (posix, no extension argument): strip trailing
separators, then keep everything after the last separator. -/
def pathBasename (p : String) : String :=
  String.mk ((((p.data.reverse).dropWhile (fun c => c = '/')).takeWhile
    (fun c => c ≠ '/')).reverse)

/-- Node `path.dirname` (posix): the directory part of a path, `"."` for
paths without a separator, following Node's exact scan (skip trailing
separators, skip the base name, cut before the separator found, never
looking at index 0; `"//"` special case for a double-slash root). -/
def pathDirname (p : String) : String :=
  if p.data.isEmpty then "." else
  let cs := p.data
  let hasRoot := listStartsWith cs ['/']
  let r2 := (cs.reverse.dropWhile (fun c => c = '/')).dropWhile (fun c => c ≠ '/')
  if r2.length ≤ 1 then (if hasRoot then "/" else ".")
  else if hasRoot && r2.length = 2 then "//"
  else String.mk (cs.take (r2.length - 1))

/-- Split a character list on `'/'` (used by `pathNormalize`). -/
def splitSlash : List Char → List (List Char)
  | [] => [[]]
  | c :: rest =>
    let r := splitSlash rest
    if c = '/' then [] :: r
    else
      match r with
      | h :: t => (c :: h) :: t
      | [] => [[c]]

/-- Join segments with `'/'` (used by `pathNormalize`). -/
def joinSlash : List (List Char) → List Char
  | [] => []
  | [x] => x
  | x :: xs => x ++ '/' :: joinSlash xs

/-- Node `path.normalize` (posix): drop empty and `"."` segments, resolve
`".."` segments, keep a trailing separator, restore the root. -/
def pathNormalize (p : String) : String :=
  let cs := p.data
  if cs.isEmpty then "." else
  let isAbs := listStartsWith cs ['/']
  let hasTrail := listStartsWith cs.reverse ['/']
  let segs := (splitSlash cs).filter (fun s => !(s.isEmpty || s = ['.']))
  let out := (segs.foldl (fun acc s =>
      if s = ['.', '.'] then
        match acc with
        | [] => if isAbs then [] else [s]
        | t :: rest => if t = ['.', '.'] then s :: acc else rest
      else s :: acc) ([] : List (List Char))).reverse
  let body := joinSlash out
  if body.isEmpty then
    (if isAbs then "/" else if hasTrail then "./" else ".")
  else
    String.mk ((if isAbs then '/' :: body else body) ++
      (if hasTrail then ['/'] else []))

/-- Node `path.join` of two parts (posix): concatenate the non-empty
parts with a separator and normalize. -/
def pathJoin (a b : String) : String :=
  if a.data.isEmpty && b.data.isEmpty then "."
  else if a.data.isEmpty then pathNormalize b
  else if b.data.isEmpty then pathNormalize a
  else pathNormalize (a ++ "/" ++ b)

/-! ### The comment-stripping regex

`COMMENT_STRIPPING_REGEX` in the source is
`((["'])(?:\\[\s\S]|.)*?\2|\#(?![*\#])(?:\\.|\[(?:\\.|.)\]|.)*?\#)|\#.*?$|\#\*[\s\S]*?\*\#`
with flags `gm`, used as `data.replace(COMMENT_STRIPPING_REGEX, "$1")`.

The functions below implement the exact backtracking semantics of a
JavaScript regex engine for this pattern:
* group 1, first branch: a quoted string opened by `"` or `'`, whose body
  units are `\\[\s\S]` (a backslash plus any character, newline included)
  or `.` (any character except a line terminator), lazily closed by the
  opening quote;
* group 1, second branch: a `#`, not followed by `*` or `#`, whose body
  units are `\\.`, `\[(?:\\.|.)\]` or `.`, lazily closed by a `#`;
* `\#.*?$`: a `#` up to the end of the line (flag `m`), replaced by the
  empty string since group 1 did not participate;
* `\#\*[\s\S]*?\*\#` is dead code: the previous alternative matches at
  every `#` where this one could start, and alternation is ordered.

A match of group 1 is replaced by itself (kept verbatim); a match of the
third alternative is deleted.  Matching is leftmost, scanning forward,
and lazy quantifiers try to close first and otherwise consume one unit,
preferring the earlier unit alternative and backtracking on failure.
-/

/-- Is the character not a line terminator (what `.` matches)? -/
def notNL (c : Char) : Bool :=
  c ≠ '\n' && c ≠ '\r'

/-- A single-quote character (avoiding an escaped character literal). -/
def squote : Char := Char.ofNat 39

/-- Backtracking body of the quoted-string branch: given the opening
quote and the characters after it, return the remainder after the
closing quote if the branch matches. -/
def quoteRest (q : Char) : Nat → List Char → Option (List Char)
  | 0, _ => none
  | _ + 1, [] => none
  | fuel + 1, c :: rest =>
    if c = q then some rest
    else if c = '\\' then
      match rest with
      | [] => none
      | _ :: rest2 =>
        match quoteRest q fuel rest2 with
        | some r => some r
        | none => quoteRest q fuel rest
    else if notNL c then quoteRest q fuel rest
    else none

/-- Backtracking body of the `#...#` branch: given the characters after
the opening `#`, return the remainder after the closing `#` if the
branch matches. -/
def hashRest : Nat → List Char → Option (List Char)
  | 0, _ => none
  | _ + 1, [] => none
  | fuel + 1, c :: rest =>
    if c = '#' then some rest
    else if c = '\\' then
      match rest with
      | [] => none
      | d :: rest2 =>
        if notNL d then
          match hashRest fuel rest2 with
          | some r => some r
          | none => hashRest fuel rest
        else hashRest fuel rest
    else if c = '[' then
      match
        (match rest with
         | '\\' :: d :: ']' :: rest3 =>
           if notNL d then hashRest fuel rest3 else none
         | _ => none : Option (List Char))
      with
      | some r => some r
      | none =>
        match
          (match rest with
           | e :: ']' :: rest3 =>
             if notNL e then hashRest fuel rest3 else none
           | _ => none : Option (List Char))
        with
        | some r => some r
        | none => if notNL c then hashRest fuel rest else none
    else if notNL c then hashRest fuel rest
    else none

/-- Drop characters up to (but not including) the next line terminator:
the extent of a `\#.*?$` match after its `#`. -/
def dropLine : List Char → List Char
  | [] => []
  | c :: rest => if notNL c then dropLine rest else c :: rest

/-- One global replace pass of `COMMENT_STRIPPING_REGEX` with `"$1"`:
scan left to right; keep quoted strings and `#...#` spans, delete
`#`-to-end-of-line comments, copy everything else. -/
def stripLoop : Nat → List Char → List Char
  | 0, cs => cs
  | _ + 1, [] => []
  | fuel + 1, c :: rest =>
    if c = '"' || c = squote then
      match quoteRest c (rest.length + 1) rest with
      | some rem =>
        c :: (rest.take (rest.length - rem.length) ++ stripLoop fuel rem)
      | none => c :: stripLoop fuel rest
    else if c = '#' then
      if (match rest with
          | d :: _ => d ≠ '*' && d ≠ '#'
          | [] => true) then
        match hashRest (rest.length + 1) rest with
        | some rem =>
          c :: (rest.take (rest.length - rem.length) ++ stripLoop fuel rem)
        | none => stripLoop fuel (dropLine rest)
      else stripLoop fuel (dropLine rest)
    else c :: stripLoop fuel rest

/-- `data.replace(COMMENT_STRIPPING_REGEX, "$1")` from the source. -/
def stripComments (s : String) : String :=
  String.mk (stripLoop (s.data.length + 1) s.data)

/-! ### Data model of the plugin -/

/-- A parsed manifest: the string-keyed, string-valued object produced
by the external relaxed-json parser (the spec's Manifest mapping). -/
abbrev Manifest := List (String × String)

/-- An install instruction handed back to the host.  An attribute value
is an `Option String` because the source can push the raw (possibly
`undefined`) manifest value. -/
inductive Instruction where
  | attr (key : String) (value : Option String)
  | copy (source destination : String)
  deriving DecidableEq, Repr

/-- Value of the `outputPath` variable: a string, or the rejected
promise produced (and merely stored) by the root-manifest branch. -/
inductive JsVal where
  | str (s : String)
  | rejectedPromise (msg : String)
  deriving DecidableEq, Repr

/-- Outcome of an `installContent` call: a fulfilled result with its
instruction list, a `util.DataInvalid` rejection, a thrown `TypeError`,
or a file-read rejection. -/
inductive InstallOutcome where
  | ok (instructions : List Instruction)
  | invalidPackage (msg : String)
  | typeError (msg : String)
  | readError (msg : String)
  deriving DecidableEq, Repr

/-- Result of the `testSupportedContent` probe.  `requiredFiles = none`
models an object literal without that key; the element type is
`Option String` because the source puts the raw `find` result (possibly
`undefined`) into the array. -/
structure SupportedResult where
  supported : Bool
  requiredFiles : Option (List (Option String))
  deriving DecidableEq, Repr

/-- The object returned by `winapi.RegGetValue` (type tag and stored
string value). -/
structure RegValue where
  type : String
  value : String
  deriving DecidableEq, Repr

/-! ### findGame -/

/-- `findGame` from the source.  The oracle argument is the outcome of
the single `winapi.RegGetValue` call: `Except.error e` when the lookup
throws, `Except.ok none` when it returns a falsy value, `Except.ok
(some v)` when it returns the value object `v`. -/
def findGame (regResult : Except String (Option RegValue)) : Except String String :=
  match regResult with
  | .error e => .error e
  | .ok none => .error "Starsector registry key not found!"
  | .ok (some instPath) => .ok instPath.value

/-! ### testSupportedContent -/

/-- `testSupportedContent` from the source. -/
def testSupportedContent (files : List String) (gameId : String) : SupportedResult :=
  if gameId ≠ GAME_ID then { supported := false, requiredFiles := none }
  else
    let contentPath := files.find? (fun file => pathBasename file == MOD_INFO_FILE)
    { supported := contentPath.isSome, requiredFiles := some [contentPath] }

/-! ### installContent -/

/-- The `getAttr` helper from the source.  A property access on the
parsed object never throws in JavaScript, so this is plain lookup: the
`catch` branch of the source (log and return `""`) is dead code, and an
absent key yields `undefined`, modelled as `none`. -/
def getAttr (parsed : Manifest) (key : String) : Option String :=
  (parsed.find? (fun kv => kv.1 == key)).map (fun kv => kv.2)

/-- The filter applied to `files` in the copy phase of the source:
`file.startsWith(basePath + path.sep) && !file.endsWith(path.sep)`. -/
def copyFilter (basePath : String) (file : String) : Bool :=
  strStartsWith file (basePath ++ "/") && !(strEndsWith file "/")

/-- The copy instructions built in the final `.then` of the source, for
a string-valued `outputPath`. -/
def copyInstructions (files : List String) (basePath outputPath : String) :
    List Instruction :=
  (files.filter (copyFilter basePath)).map
    (fun file =>
      Instruction.copy file
        (pathJoin outputPath (strDrop file (strLength basePath + 1))))

/-- The final `.then` of the source: concatenate the attribute
instructions with the mapped copy instructions.  When `outputPath` holds
the rejected promise, `path.join` throws a `TypeError` on the first
mapped file; with no file to map, the call never happens and the result
is just the attribute instructions. -/
def copyPhaseOutcome (files : List String) (basePath : String) (outputPath : JsVal)
    (attrInstructions : List Instruction) : InstallOutcome :=
  match outputPath with
  | .str out => .ok (attrInstructions ++ copyInstructions files basePath out)
  | .rejectedPromise _ =>
    if (files.filter (copyFilter basePath)).isEmpty then .ok attrInstructions
    else .typeError "Path must be a string. Received a rejected promise"

/-- The value assigned to `outputPath` after the id check in the source:
the base name of the manifest's directory when the manifest file name
occurs at an index greater than 0 in its path, and otherwise the
rejected promise that the source builds and stores without returning. -/
def outputPathVal (contentPath : String) : JsVal :=
  if jsIndexOf contentPath MOD_INFO_FILE > 0 then
    .str (pathBasename (pathDirname contentPath))
  else
    .rejectedPromise ("invalid or unsupported " ++ MOD_INFO_FILE)

/-- `installContent` from the source.  `readFile` is the
`fs.readFileAsync` oracle (keyed by the joined path it is called with)
and `rjsonParse` is the `relaxed-json` parser oracle, applied to the
comment-stripped text exactly as in the source.  When no entry of
`files` has the manifest base name, `path.dirname(undefined)` throws a
`TypeError` before any read happens.  A parse failure resolves the first
`.then` with the empty attribute list, after which the copy phase still
runs with `outputPath` equal to `basePath`.  A manifest without an `id`
key rejects with `util.DataInvalid`.  A missing `name` or `version`
calls `.trim()` on `undefined`, which throws a `TypeError`; the `author`
value is pushed raw. -/
def installContent (readFile : String → Except String String)
    (rjsonParse : String → Except String Manifest)
    (files : List String) (destinationPath : String) : InstallOutcome :=
  match files.find? (fun file => pathBasename file == MOD_INFO_FILE) with
  | none => .typeError "The path argument must be of type string. Received undefined"
  | some contentPath =>
    let basePath := pathDirname contentPath
    match readFile (pathJoin destinationPath contentPath) with
    | .error e => .readError e
    | .ok data =>
      match rjsonParse (stripComments data) with
      | .error _ => copyPhaseOutcome files basePath (.str basePath) []
      | .ok parsed =>
        match getAttr parsed "id" with
        | none => .invalidPackage ("invalid or unsupported " ++ MOD_INFO_FILE)
        | some _ =>
          let outputPath := outputPathVal contentPath
          match getAttr parsed "name" with
          | none => .typeError "Cannot read properties of undefined (reading trim)"
          | some nameVal =>
            match getAttr parsed "version" with
            | none => .typeError "Cannot read properties of undefined (reading trim)"
            | some versionVal =>
              copyPhaseOutcome files basePath outputPath
                [Instruction.attr "customFileName" (some (strTrim nameVal)),
                 Instruction.attr "version" (some (strTrim versionVal)),
                 Instruction.attr "author" (getAttr parsed "author")]

/-! ### Shared helper lemmas and concrete fixtures -/

/-- Helper: `find?` returns the unique element satisfying the predicate. -/
theorem find?_eq_of_unique {α : Type} {p : α → Bool} {l : List α} {e : α}
    (he : e ∈ l) (hpe : p e = true) (huniq : ∀ f ∈ l, p f = true → f = e) :
    l.find? p = some e := by
  induction l with
  | nil => cases he
  | cons a l ih =>
    by_cases hpa : p a = true
    · have hae : a = e := huniq a (List.mem_cons_self a l) hpa
      rw [List.find?_cons_of_pos _ hpa, hae]
    · have hne : e ≠ a := fun h => hpa (h ▸ hpe)
      have he' : e ∈ l := by
        rcases List.mem_cons.mp he with h | h
        · exact absurd h hne
        · exact h
      rw [List.find?_cons_of_neg _ hpa]
      exact ih he' (fun f hf hpf => huniq f (List.mem_cons_of_mem a hf) hpf)

/-- A well-formed parsed manifest used as a concrete fixture. -/
def demoManifest : Manifest :=
  [("id", "mod1"), ("name", "My Mod"), ("version", "1.0"), ("author", "Alice")]

/-- A well-formed parsed manifest for a package whose manifest sits at
the package root. -/
def rootManifest : Manifest :=
  [("id", "m"), ("name", "n"), ("version", "v"), ("author", "a")]

/-- A text on which comment stripping is not idempotent: the first pass
removes the line comment after the backslash, leaving a backslash right
before the newline, which lets the second pass pair the quotes across
the line break and then remove more text. -/
def nonIdemInput : String := "\" x \\#c\n#a\"b# z"

end Starsector

namespace Starsector

/-! ### C1 -/

/-- C1 counterexample: a manifest that fails to parse does not yield an
empty instruction list — copy instructions are still emitted. -/
theorem C1_empty_instructions_cex :
    installContent (fun _ => Except.ok "not json")
        (fun _ => Except.error "parse error")
        ["mod1/mod_info.json", "mod1/data/foo.txt"] "dest" =
      InstallOutcome.ok
        [Instruction.copy "mod1/mod_info.json" "mod1/mod_info.json",
         Instruction.copy "mod1/data/foo.txt" "mod1/data/foo.txt"] ∧
    installContent (fun _ => Except.ok "not json")
        (fun _ => Except.error "parse error")
        ["mod1/mod_info.json", "mod1/data/foo.txt"] "dest" ≠
      InstallOutcome.ok [] := by
  decide

/-- C1 (amended): when the manifest file is read but fails to parse
(after comment stripping), install resolves successfully with no
attribute instructions; the copy phase still runs with `outputPath`
equal to `basePath`, so the instruction list consists exactly of the
copy instructions for the entries under `basePath`. -/
theorem C1_parse_failure_keeps_copies
    (readFile : String → Except String String)
    (rjsonParse : String → Except String Manifest)
    (files : List String) (destinationPath contentPath data e : String)
    (hfind : files.find? (fun file => pathBasename file == MOD_INFO_FILE) =
      some contentPath)
    (hread : readFile (pathJoin destinationPath contentPath) = Except.ok data)
    (hparse : rjsonParse (stripComments data) = Except.error e) :
    installContent readFile rjsonParse files destinationPath =
      InstallOutcome.ok
        (copyInstructions files (pathDirname contentPath) (pathDirname contentPath)) := by
  simp [installContent, hfind, hread, hparse, copyPhaseOutcome]

/-- C1 witness: the amended statement instantiated at a concrete
parse-failing package. -/
theorem C1_parse_failure_keeps_copies_witness :
    installContent (fun _ => Except.ok "bad manifest")
        (fun _ => Except.error "unbalanced")
        ["mod1/mod_info.json", "mod1/data/foo.txt"] "dest" =
      InstallOutcome.ok
        [Instruction.copy "mod1/mod_info.json" "mod1/mod_info.json",
         Instruction.copy "mod1/data/foo.txt" "mod1/data/foo.txt"] := by
  rw [C1_parse_failure_keeps_copies (fun _ => Except.ok "bad manifest")
    (fun _ => Except.error "unbalanced")
    ["mod1/mod_info.json", "mod1/data/foo.txt"] "dest"
    "mod1/mod_info.json" "bad manifest" "unbalanced" (by decide) rfl rfl]
  decide

/-! ### C2 -/

/-- C2 (code bug): evaluating the code on a manifest that parses
successfully with an `id` but without the optional `name` key: the
source's `getAttr` catch branch is dead (a JavaScript property access
never throws), so `getAttr('name')` returns `undefined` and the
`.trim()` call throws a `TypeError`, rejecting the install instead of
defaulting the value to the empty string. -/
theorem C2_missing_name_rejects :
    installContent (fun _ => Except.ok "id only")
        (fun _ => Except.ok [("id", "mod1")])
        ["mod1/mod_info.json"] "dest" =
      InstallOutcome.typeError "Cannot read properties of undefined (reading trim)" := by
  decide

/-! ### C3 -/

/-- C3 counterexample: with a matching gameId and a file list lacking a
manifest-named entry, the probe returns `requiredFiles` equal to a
one-element array holding the undefined find result — not an absent
`requiredFiles`. -/
theorem C3_requiredFiles_cex :
    (testSupportedContent ["readme.txt"] "starsector").supported = false ∧
    (testSupportedContent ["readme.txt"] "starsector").requiredFiles = some [none] ∧
    (testSupportedContent ["readme.txt"] "starsector").requiredFiles ≠ none := by
  decide

/-- C3 (amended): the probe returns `supported = false` without
inspecting the file list when the gameId differs; when the gameId
matches and no entry has the manifest file name as final segment it
returns `supported = false` with `requiredFiles = [undefined]`; when
exactly one such entry exists it returns `supported = true` with
`requiredFiles = [thatPath]`. -/
theorem C3_testSupported_amended :
    (∀ (files : List String) (gameId : String), gameId ≠ GAME_ID →
      testSupportedContent files gameId =
        { supported := false, requiredFiles := none }) ∧
    (∀ files : List String, (∀ f ∈ files, pathBasename f ≠ MOD_INFO_FILE) →
      testSupportedContent files GAME_ID =
        { supported := false, requiredFiles := some [none] }) ∧
    (∀ (files : List String) (e : String), e ∈ files →
      pathBasename e = MOD_INFO_FILE →
      (∀ f ∈ files, pathBasename f = MOD_INFO_FILE → f = e) →
      testSupportedContent files GAME_ID =
        { supported := true, requiredFiles := some [some e] }) := by
  refine ⟨?_, ?_, ?_⟩
  · intro files gameId h
    simp [testSupportedContent, h]
  · intro files h
    have hfind : files.find? (fun file => pathBasename file == MOD_INFO_FILE) = none := by
      apply List.find?_eq_none.mpr
      intro f hf
      simpa using h f hf
    simp [testSupportedContent, hfind]
  · intro files e he hbe huniq
    have hfind : files.find? (fun file => pathBasename file == MOD_INFO_FILE) = some e := by
      apply find?_eq_of_unique he
      · simpa using hbe
      · intro f hf hpf
        exact huniq f hf (by simpa using hpf)
    simp [testSupportedContent, hfind]

/-- C3 witness: the amended statement instantiated at concrete probe
calls. -/
theorem C3_testSupported_amended_witness :
    testSupportedContent ["mod1/mod_info.json"] "othergame" =
      { supported := false, requiredFiles := none } ∧
    testSupportedContent ["readme.txt"] GAME_ID =
      { supported := false, requiredFiles := some [none] } ∧
    testSupportedContent ["mod1/mod_info.json"] GAME_ID =
      { supported := true, requiredFiles := some [some "mod1/mod_info.json"] } :=
  ⟨C3_testSupported_amended.1 ["mod1/mod_info.json"] "othergame" (by decide),
   C3_testSupported_amended.2.1 ["readme.txt"] (by decide),
   C3_testSupported_amended.2.2 ["mod1/mod_info.json"] "mod1/mod_info.json"
     (by decide) (by decide) (by decide)⟩

/-! ### C4 -/

/-- C4 counterexample: on the round-trip input, install does not return
the four claimed instructions — the manifest file itself also passes the
copy filter, so a fifth (fourth-positioned) copy instruction appears. -/
theorem C4_four_instructions_cex :
    installContent (fun _ => Except.ok "manifest text")
        (fun _ => Except.ok demoManifest)
        ["mod1/mod_info.json", "mod1/data/foo.txt"] "dest" ≠
      InstallOutcome.ok
        [Instruction.attr "customFileName" (some "My Mod"),
         Instruction.attr "version" (some "1.0"),
         Instruction.attr "author" (some "Alice"),
         Instruction.copy "mod1/data/foo.txt" "mod1/data/foo.txt"] := by
  decide

/-- C4 (amended): for the round-trip input whose manifest parses to
id "mod1", name "My Mod", version "1.0", author "Alice" with package
files mod1/mod_info.json and mod1/data/foo.txt, install returns exactly
five instructions: the three attribute instructions followed by a copy
of mod1/mod_info.json and a copy of mod1/data/foo.txt. -/
theorem C4_roundtrip_amended
    (readFile : String → Except String String)
    (rjsonParse : String → Except String Manifest)
    (destinationPath data : String)
    (hread : readFile (pathJoin destinationPath "mod1/mod_info.json") =
      Except.ok data)
    (hparse : rjsonParse (stripComments data) = Except.ok demoManifest) :
    installContent readFile rjsonParse
        ["mod1/mod_info.json", "mod1/data/foo.txt"] destinationPath =
      InstallOutcome.ok
        [Instruction.attr "customFileName" (some "My Mod"),
         Instruction.attr "version" (some "1.0"),
         Instruction.attr "author" (some "Alice"),
         Instruction.copy "mod1/mod_info.json" "mod1/mod_info.json",
         Instruction.copy "mod1/data/foo.txt" "mod1/data/foo.txt"] := by
  have hfind : (["mod1/mod_info.json", "mod1/data/foo.txt"]).find?
      (fun file => pathBasename file == MOD_INFO_FILE) =
      some "mod1/mod_info.json" := by decide
  simp [installContent, hfind, hread, hparse]
  decide

/-- C4 witness: the amended statement instantiated with concrete file
and parser oracles. -/
theorem C4_roundtrip_amended_witness :
    installContent (fun _ => Except.ok "manifest text")
        (fun _ => Except.ok demoManifest)
        ["mod1/mod_info.json", "mod1/data/foo.txt"] "dest" =
      InstallOutcome.ok
        [Instruction.attr "customFileName" (some "My Mod"),
         Instruction.attr "version" (some "1.0"),
         Instruction.attr "author" (some "Alice"),
         Instruction.copy "mod1/mod_info.json" "mod1/mod_info.json",
         Instruction.copy "mod1/data/foo.txt" "mod1/data/foo.txt"] :=
  C4_roundtrip_amended (fun _ => Except.ok "manifest text")
    (fun _ => Except.ok demoManifest) "dest" "manifest text" rfl rfl

/-! ### C5 -/

/-- C5: a manifest that parses successfully but has no `id` key makes
the install call reject with the invalid-package error, whatever the
other fields are; no instructions are returned. -/
theorem C5_missing_id_invalid
    (readFile : String → Except String String)
    (rjsonParse : String → Except String Manifest)
    (files : List String) (destinationPath contentPath data : String)
    (parsed : Manifest)
    (hfind : files.find? (fun file => pathBasename file == MOD_INFO_FILE) =
      some contentPath)
    (hread : readFile (pathJoin destinationPath contentPath) = Except.ok data)
    (hparse : rjsonParse (stripComments data) = Except.ok parsed)
    (hid : getAttr parsed "id" = none) :
    installContent readFile rjsonParse files destinationPath =
      InstallOutcome.invalidPackage ("invalid or unsupported " ++ MOD_INFO_FILE) := by
  simp [installContent, hfind, hread, hparse, hid]

/-- C5 witness: a concrete manifest with well-formed optional fields but
no `id` rejects with the invalid-package error. -/
theorem C5_missing_id_invalid_witness :
    installContent (fun _ => Except.ok "no id here")
        (fun _ => Except.ok [("name", "x"), ("version", "1"), ("author", "y")])
        ["mod1/mod_info.json"] "dest" =
      InstallOutcome.invalidPackage ("invalid or unsupported " ++ MOD_INFO_FILE) :=
  C5_missing_id_invalid (fun _ => Except.ok "no id here")
    (fun _ => Except.ok [("name", "x"), ("version", "1"), ("author", "y")])
    ["mod1/mod_info.json"] "dest" "mod1/mod_info.json" "no id here"
    [("name", "x"), ("version", "1"), ("author", "y")]
    (by decide) rfl rfl (by decide)

/-! ### C6 -/

/-- C6 counterexample: with the manifest at the package root,
`outputPath` does not keep its stale prior string value — it is
overwritten with the rejected-promise value — and with a file list entry
passing the copy filter the install does not run to completion: it
fails with a type error when the copy destination is built from the
non-string `outputPath`. -/
theorem C6_stale_outputPath_cex :
    outputPathVal "mod_info.json" =
      JsVal.rejectedPromise ("invalid or unsupported " ++ MOD_INFO_FILE) ∧
    outputPathVal "mod_info.json" ≠ JsVal.str (pathDirname "mod_info.json") ∧
    installContent (fun _ => Except.ok "root data")
        (fun _ => Except.ok rootManifest)
        ["mod_info.json", "./extra.txt"] "dest" =
      InstallOutcome.typeError "Path must be a string. Received a rejected promise" := by
  decide

/-- C6 (amended): when the manifest entry sits at the very root of the
package, the invalid-package rejection is indeed never raised or
returned — the rejected-promise value is assigned to `outputPath` — so
the root-placement condition is not enforced; but `outputPath` then
holds the rejected-promise object rather than its prior string value,
and the install runs to completion (attribute instructions only) exactly
when no file list entry passes the copy filter; otherwise it fails with
a type error. -/
theorem C6_root_rejection_unenforced
    (readFile : String → Except String String)
    (rjsonParse : String → Except String Manifest)
    (files : List String)
    (destinationPath contentPath data idVal nameVal versionVal : String)
    (parsed : Manifest)
    (hfind : files.find? (fun file => pathBasename file == MOD_INFO_FILE) =
      some contentPath)
    (hroot : ¬ jsIndexOf contentPath MOD_INFO_FILE > 0)
    (hread : readFile (pathJoin destinationPath contentPath) = Except.ok data)
    (hparse : rjsonParse (stripComments data) = Except.ok parsed)
    (hid : getAttr parsed "id" = some idVal)
    (hname : getAttr parsed "name" = some nameVal)
    (hver : getAttr parsed "version" = some versionVal) :
    outputPathVal contentPath =
      JsVal.rejectedPromise ("invalid or unsupported " ++ MOD_INFO_FILE) ∧
    installContent readFile rjsonParse files destinationPath =
      (if (files.filter (copyFilter (pathDirname contentPath))).isEmpty then
        InstallOutcome.ok
          [Instruction.attr "customFileName" (some (strTrim nameVal)),
           Instruction.attr "version" (some (strTrim versionVal)),
           Instruction.attr "author" (getAttr parsed "author")]
      else
        InstallOutcome.typeError "Path must be a string. Received a rejected promise") := by
  have hop : outputPathVal contentPath =
      JsVal.rejectedPromise ("invalid or unsupported " ++ MOD_INFO_FILE) := by
    simp [outputPathVal, hroot]
  refine ⟨hop, ?_⟩
  simp [installContent, hfind, hread, hparse, hid, hname, hver, hop,
    copyPhaseOutcome]

/-- C6 witness: the amended statement instantiated at a root-manifest
package with no entry passing the copy filter, which completes with the
three attribute instructions. -/
theorem C6_root_rejection_unenforced_witness :
    installContent (fun _ => Except.ok "root data")
        (fun _ => Except.ok rootManifest) ["mod_info.json"] "dest" =
      InstallOutcome.ok
        [Instruction.attr "customFileName" (some "n"),
         Instruction.attr "version" (some "v"),
         Instruction.attr "author" (some "a")] := by
  rw [(C6_root_rejection_unenforced (fun _ => Except.ok "root data")
    (fun _ => Except.ok rootManifest) ["mod_info.json"] "dest"
    "mod_info.json" "root data" "m" "n" "v" rootManifest
    (by decide) (by decide) rfl rfl (by decide) (by decide) (by decide)).2]
  decide

/-! ### C7 -/

/-- C7: on a successful install (manifest found below the package root,
parse succeeded, id, name and version present), the instruction list is
the attribute instructions followed by exactly one copy instruction per
file list entry passing the copy filter, with source the entry itself
and destination `outputPath` joined with the entry's path relative to
`basePath`; every emitted copy source starts with `basePath` plus the
separator and no source ends with the separator. -/
theorem C7_copy_instructions_exact
    (readFile : String → Except String String)
    (rjsonParse : String → Except String Manifest)
    (files : List String)
    (destinationPath contentPath data idVal nameVal versionVal : String)
    (parsed : Manifest)
    (hfind : files.find? (fun file => pathBasename file == MOD_INFO_FILE) =
      some contentPath)
    (hsub : jsIndexOf contentPath MOD_INFO_FILE > 0)
    (hread : readFile (pathJoin destinationPath contentPath) = Except.ok data)
    (hparse : rjsonParse (stripComments data) = Except.ok parsed)
    (hid : getAttr parsed "id" = some idVal)
    (hname : getAttr parsed "name" = some nameVal)
    (hver : getAttr parsed "version" = some versionVal) :
    installContent readFile rjsonParse files destinationPath =
      InstallOutcome.ok
        ([Instruction.attr "customFileName" (some (strTrim nameVal)),
          Instruction.attr "version" (some (strTrim versionVal)),
          Instruction.attr "author" (getAttr parsed "author")] ++
          copyInstructions files (pathDirname contentPath)
            (pathBasename (pathDirname contentPath))) ∧
    ∀ s d, Instruction.copy s d ∈
        copyInstructions files (pathDirname contentPath)
          (pathBasename (pathDirname contentPath)) →
      strStartsWith s (pathDirname contentPath ++ "/") = true ∧
        strEndsWith s "/" = false := by
  constructor
  · have hop : outputPathVal contentPath =
        JsVal.str (pathBasename (pathDirname contentPath)) := by
      simp [outputPathVal, hsub]
    simp [installContent, hfind, hread, hparse, hid, hname, hver, hop,
      copyPhaseOutcome]
  · intro s d hmem
    rcases List.mem_map.mp hmem with ⟨f, hf, hcopy⟩
    have hfs : f = s := by
      injection hcopy with h1 h2
    subst hfs
    have hfilt := (List.mem_filter.mp hf).2
    simp [copyFilter] at hfilt
    exact hfilt

/-- C7 witness: the statement instantiated at a concrete package that
also contains a directory marker entry, which produces no copy
instruction. -/
theorem C7_copy_instructions_exact_witness :
    installContent (fun _ => Except.ok "manifest body")
        (fun _ => Except.ok demoManifest)
        ["mod1/mod_info.json", "mod1/data/foo.txt", "mod1/sub/"] "dest" =
      InstallOutcome.ok
        [Instruction.attr "customFileName" (some "My Mod"),
         Instruction.attr "version" (some "1.0"),
         Instruction.attr "author" (some "Alice"),
         Instruction.copy "mod1/mod_info.json" "mod1/mod_info.json",
         Instruction.copy "mod1/data/foo.txt" "mod1/data/foo.txt"] := by
  rw [(C7_copy_instructions_exact (fun _ => Except.ok "manifest body")
    (fun _ => Except.ok demoManifest)
    ["mod1/mod_info.json", "mod1/data/foo.txt", "mod1/sub/"] "dest"
    "mod1/mod_info.json" "manifest body" "mod1" "My Mod" "1.0" demoManifest
    (by decide) (by decide) rfl rfl (by decide) (by decide) (by decide)).1]
  decide

/-! ### C8 -/

/-- C8 counterexample: comment stripping is not idempotent — on
`nonIdemInput` a second application removes further text. -/
theorem C8_idempotent_cex :
    stripComments (stripComments nonIdemInput) ≠ stripComments nonIdemInput := by
  decide

/-- C8 (amended): comment stripping is string-literal-safe — a hash
inside a quoted string literal such as the value "a # b" survives
stripping unchanged, while a trailing hash comment outside quotes is
removed — but it is not idempotent for every input text. -/
theorem C8_strip_literal_safe_not_idempotent :
    stripComments "\"a # b\"" = "\"a # b\"" ∧
    stripComments "value # comment" = "value " ∧
    stripComments (stripComments nonIdemInput) ≠ stripComments nonIdemInput := by
  decide

/-! ### C9 -/

/-- C9 counterexample: when the registry lookup yields a value object
holding the empty string, `findGame` succeeds and returns the empty
string rather than failing. -/
theorem C9_empty_value_cex :
    findGame (Except.ok (some { type := "REG_SZ", value := "" })) =
      Except.ok "" := rfl

/-- C9 (amended): `findGame` performs the single registry lookup it is
given and fails exactly when the lookup throws or yields no value
object; when the lookup yields a value object it returns the stored
installation path string, even when that string is empty. -/
theorem C9_findGame_amended :
    (∀ r : Except String (Option RegValue),
      (∃ s, findGame r = Except.ok s) ↔ (∃ rv, r = Except.ok (some rv))) ∧
    (∀ rv : RegValue, findGame (Except.ok (some rv)) = Except.ok rv.value) := by
  constructor
  · intro r
    constructor
    · rintro ⟨s, hs⟩
      match r with
      | .error e => simp [findGame] at hs
      | .ok none => simp [findGame] at hs
      | .ok (some rv) => exact ⟨rv, rfl⟩
    · rintro ⟨rv, rfl⟩
      exact ⟨rv.value, rfl⟩
  · intro rv
    rfl

/-- C9 witness: the amended statement instantiated at a concrete
registry value. -/
theorem C9_findGame_amended_witness :
    findGame (Except.ok (some { type := "REG_SZ", value := "C:\\Starsector" })) =
      Except.ok "C:\\Starsector" :=
  C9_findGame_amended.2 { type := "REG_SZ", value := "C:\\Starsector" }

/-! ### C10 -/

/-- C10: when no file list entry has the manifest file name as its final
path segment, install neither returns an install result nor rejects
with the invalid-package error: for every file-read and parser oracle it
fails with the type error raised by taking the directory of the
undefined find result, before any file is read. -/
theorem C10_no_manifest_type_error
    (readFile : String → Except String String)
    (rjsonParse : String → Except String Manifest)
    (files : List String) (destinationPath : String)
    (h : ∀ f ∈ files, pathBasename f ≠ MOD_INFO_FILE) :
    installContent readFile rjsonParse files destinationPath =
      InstallOutcome.typeError
        "The path argument must be of type string. Received undefined" := by
  have hfind : files.find? (fun file => pathBasename file == MOD_INFO_FILE) = none := by
    apply List.find?_eq_none.mpr
    intro f hf
    simpa using h f hf
  simp [installContent, hfind]

/-- C10 witness: the statement instantiated at a concrete manifest-free
file list. -/
theorem C10_no_manifest_type_error_witness :
    installContent (fun _ => Except.ok "irrelevant")
        (fun _ => Except.ok demoManifest) ["somefolder/readme.txt"] "dest" =
      InstallOutcome.typeError
        "The path argument must be of type string. Received undefined" :=
  C10_no_manifest_type_error (fun _ => Except.ok "irrelevant")
    (fun _ => Except.ok demoManifest) ["somefolder/readme.txt"] "dest"
    (by decide)

end Starsector
